import Mathlib

/-!
Verification development for the iconDrawer filesystem-synchronization and
icon-resolution core (src/modules/data_manager.py, src/modules/icon_loader.py,
src/modules/icon_dispatcher.py), as a shallow embedding in Lean 4.

Conventions of the embedding:
- Python dicts keyed by path strings become association lists.
- Qt timers become explicit (root, deadline) pairs over an abstract Nat clock;
  QTimer.start(200) becomes a deadline of now + 200.
- Fallible OS and Qt calls become environment functions returning Except or
  outcome inductives; a Python try/except becomes a match on that result.
- Signals become trace events appended to an explicit trace list.
-/

namespace IconDrawer

/-- File metadata snapshot, mirroring the FileInfo NamedTuple of
data_manager.py (name, path, is_dir). -/
structure FileInfo where
  name : String
  path : String
  is_dir : Bool
deriving DecidableEq, Repr

/-- The pending-refresh bookkeeping of DrawerWatchdogManager:
the dict from root path to its single-shot debounce timer, modelled as an
association list from root to the timer deadline on an abstract ms clock. -/
abbrev Pending := List (String × Nat)

/-- Membership test used by _processRefreshRequest (root_path in self._pending_refreshes). -/
def pendingHas (p : Pending) (r : String) : Bool :=
  p.any (fun q => q.1 == r)

/-- Number of pending timers held for a given root. -/
def countRoot (p : Pending) (r : String) : Nat :=
  (p.filter (fun q => q.1 == r)).length

/-- DrawerWatchdogManager._processRefreshRequest: if a timer for the root is
already pending, restart it (timer.start(200), i.e. deadline now + 200);
otherwise create a fresh single-shot timer with deadline now + 200. -/
def processRefreshRequest (p : Pending) (r : String) (now : Nat) : Pending :=
  if pendingHas p r then
    p.map (fun q => if q.1 == r then (q.1, now + 200) else q)
  else
    p ++ [(r, now + 200)]

/-- Observable actions of the debouncer: removal of a root's pending-timer
bookkeeping, and emission of the directoryChanged signal for a root. -/
inductive TraceEv where
  | removed (root : String)
  | notified (root : String)
deriving DecidableEq, Repr

/-- DrawerWatchdogManager._emit_refresh_signal: under the lock, delete the
root's bookkeeping, then emit directoryChanged. Returns the pending map after
the deletion and the ordered action sequence of the callback. -/
def emitRefreshSignal (p : Pending) (r : String) : Pending × List TraceEv :=
  (p.filter (fun q => q.1 != r), [TraceEv.removed r, TraceEv.notified r])

/-- Debouncer simulation state: the pending-timer map plus the timestamped
trace of actions performed so far. -/
structure SimState where
  pending : Pending
  trace : List (Nat × TraceEv)
deriving Repr

/-- One timer expiry: the callback runs _emit_refresh_signal for its root,
stamped with the timer's deadline. -/
def fireOne (s : SimState) (q : String × Nat) : SimState :=
  let er := emitRefreshSignal s.pending q.1
  ⟨er.1, s.trace ++ er.2.map (fun ev => (q.2, ev))⟩

/-- Fire every pending timer whose deadline has been reached by time now. -/
def fireDue (s : SimState) (now : Nat) : SimState :=
  (s.pending.filter (fun q => decide (q.2 ≤ now))).foldl fireOne s

/-- A refresh request for root r arriving at time now: timers already due
have fired, then _processRefreshRequest runs on the main thread. -/
def stepRequest (s : SimState) (now : Nat) (r : String) : SimState :=
  let s1 := fireDue s now
  ⟨processRefreshRequest s1.pending r now, s1.trace⟩

/-- Process a time-ordered list of (time, root) refresh requests. -/
def runRequests (s : SimState) : List (Nat × String) → SimState
  | [] => s
  | (t, r) :: rest => runRequests (stepRequest s t r) rest

/-- Let every remaining timer expire (advance the clock past all deadlines). -/
def drainAll (s : SimState) : SimState :=
  s.pending.foldl fireOne s

/-- Full run of a burst: all requests are for the single root r, then time
advances until every timer has expired. -/
def simBurst (r : String) (ts : List Nat) : SimState :=
  drainAll (runRequests ⟨[], []⟩ (ts.map (fun t => (t, r))))

/-- A time list stays within the debounce window of its predecessor:
each request arrives no earlier than the previous one and strictly before
the previous request's 200ms deadline. -/
def withinWindowB : Nat → List Nat → Bool
  | _, [] => true
  | prev, t :: rest => decide (prev ≤ t) && decide (t < prev + 200) && withinWindowB t rest

/-- Time of the last request in a burst starting at t0. -/
def lastTimeOf : Nat → List Nat → Nat
  | t0, [] => t0
  | _, t :: ts => lastTimeOf t ts

/-- The notification timestamps recorded for a given root. -/
def notifyTimes (tr : List (Nat × TraceEv)) (r : String) : List Nat :=
  tr.filterMap (fun e =>
    match e.2 with
    | TraceEv.notified x => if x == r then some e.1 else none
    | TraceEv.removed _ => none)

theorem withinWindowB_append {l1 l2 : List Nat} :
    ∀ {p : Nat}, withinWindowB p (l1 ++ l2) = true → withinWindowB p l1 = true := by
  induction l1 with
  | nil => intro p _; rfl
  | cons t ts ih =>
    intro p h
    simp only [List.cons_append, withinWindowB, Bool.and_eq_true, decide_eq_true_eq] at h ⊢
    exact ⟨⟨h.1.1, h.1.2⟩, ih h.2⟩

theorem runRequests_burst (r : String) :
    ∀ (ts : List Nat) (prev : Nat) (tr : List (Nat × TraceEv)),
      withinWindowB prev ts = true →
      runRequests ⟨[(r, prev + 200)], tr⟩ (ts.map (fun t => (t, r)))
        = ⟨[(r, lastTimeOf prev ts + 200)], tr⟩ := by
  intro ts
  induction ts with
  | nil => intro prev tr _; rfl
  | cons t ts ih =>
    intro prev tr h
    simp only [withinWindowB, Bool.and_eq_true, decide_eq_true_eq] at h
    obtain ⟨⟨h1, h2⟩, h3⟩ := h
    have hnot : ¬ (prev + 200 ≤ t) := by omega
    simp only [List.map_cons, runRequests]
    have hstep : stepRequest ⟨[(r, prev + 200)], tr⟩ t r = ⟨[(r, t + 200)], tr⟩ := by
      simp [stepRequest, fireDue, hnot, processRefreshRequest, pendingHas]
    rw [hstep, ih t tr h3]
    rfl

/-- Claim C1: debounce coalescing. A request for a root with an existing
pending timer restarts that timer instead of adding a second one; along a
burst of requests for one root that all arrive within the 200ms window of
their predecessor, at most one timer for that root is ever pending; exactly
one directoryChanged notification for that root is emitted, at 200ms after
the last request of the burst; and on expiry the pending bookkeeping for the
root is removed before the notification is emitted. -/
theorem debounce_coalescing (r : String) (t0 : Nat) (rest : List Nat)
    (hw : withinWindowB t0 rest = true) :
    (∀ (p : Pending) (now : Nat), pendingHas p r = true →
      (processRefreshRequest p r now).length = p.length)
    ∧ (∀ pre suf : List Nat, t0 :: rest = pre ++ suf →
        countRoot (runRequests ⟨[], []⟩ (pre.map (fun t => (t, r)))).pending r ≤ 1)
    ∧ (simBurst r (t0 :: rest)).trace
        = [(lastTimeOf t0 rest + 200, TraceEv.removed r),
           (lastTimeOf t0 rest + 200, TraceEv.notified r)]
    ∧ notifyTimes (simBurst r (t0 :: rest)).trace r = [lastTimeOf t0 rest + 200]
    ∧ (simBurst r (t0 :: rest)).pending = [] := by
  have hfirst : stepRequest ⟨[], []⟩ t0 r = ⟨[(r, t0 + 200)], []⟩ := by
    simp [stepRequest, fireDue, processRefreshRequest, pendingHas]
  have hrun : runRequests ⟨[], []⟩ (((t0 :: rest)).map (fun t => (t, r)))
      = ⟨[(r, lastTimeOf t0 rest + 200)], []⟩ := by
    simp only [List.map_cons, runRequests, hfirst]
    exact runRequests_burst r rest t0 [] hw
  have hburst : simBurst r (t0 :: rest)
      = ⟨[], [(lastTimeOf t0 rest + 200, TraceEv.removed r),
              (lastTimeOf t0 rest + 200, TraceEv.notified r)]⟩ := by
    simp only [simBurst, hrun]
    simp [drainAll, fireOne, emitRefreshSignal]
  refine ⟨?_, ?_, ?_, ?_, ?_⟩
  · intro p now hp
    simp [processRefreshRequest, hp]
  · intro pre suf hsplit
    cases pre with
    | nil => simp [runRequests, countRoot]
    | cons a pre2 =>
      rw [List.cons_append] at hsplit
      injection hsplit with h1 h2
      subst h1
      have hw2 : withinWindowB t0 pre2 = true :=
        withinWindowB_append (h2 ▸ hw)
      have : runRequests ⟨[], []⟩ ((t0 :: pre2).map (fun t => (t, r)))
          = ⟨[(r, lastTimeOf t0 pre2 + 200)], []⟩ := by
        simp only [List.map_cons, runRequests, hfirst]
        exact runRequests_burst r pre2 t0 [] hw2
      rw [this]
      simp [countRoot]
  · rw [hburst]
  · rw [hburst]; simp [notifyTimes]
  · rw [hburst]

/-- Concrete check of Claim C1: a burst of three requests at 0, 50, 100 ms
for one root satisfies the window hypothesis and yields exactly the
remove-then-notify pair at 300 ms. -/
theorem debounce_coalescing_witness :
    withinWindowB 0 [50, 100] = true
    ∧ (simBurst "a" [0, 50, 100]).trace
        = [(300, TraceEv.removed "a"), (300, TraceEv.notified "a")] :=
  ⟨by decide, (debounce_coalescing "a" 0 [50, 100] (by decide)).2.2.1⟩

/-! ### Directory scanning and the content cache (DataManager) -/

/-- One step of iterating p.iterdir() plus the per-child stat calls:
either a child entry is produced, or an OS error is raised at that point. -/
inductive ScanItem where
  | entry (f : FileInfo)
  | oserror
deriving DecidableEq, Repr

/-- Filesystem environment seen by DataManager.reload_drawer_content.
isDirCheck models Path(drawer_path).is_dir(), which may itself raise
(covered by the outer try of reload_drawer_content); attemptListing gives,
for each retry attempt index, the item stream the iterdir loop encounters
on that attempt. -/
structure FsEnv where
  isDirCheck : String → Except Unit Bool
  attemptListing : String → Nat → List ScanItem

/-- The body of one scan attempt: walk the item stream accumulating
FileInfo entries; an OS error raises out of the loop. -/
def collectUntilError : List ScanItem → Except Unit (List FileInfo)
  | [] => Except.ok []
  | ScanItem.entry f :: rest => (collectUntilError rest).map (fun fs => f :: fs)
  | ScanItem.oserror :: _ => Except.error ()

/-- Whether the attempt raised (used to phrase hypotheses about failing scans). -/
def scanRaised (items : List ScanItem) : Bool :=
  match collectUntilError items with
  | Except.error _ => true
  | Except.ok _ => false

/-- Result of one attempt as reload_drawer_content sees it: the except
handler of the attempt replaces the partial file_list with []. -/
def scanAttemptResult (items : List ScanItem) : List FileInfo :=
  match collectUntilError items with
  | Except.ok fs => fs
  | Except.error _ => []

/-- Outcome of the retry loop: the accepted listing, the number of attempts
performed, and the total time.sleep(0.2) delay in milliseconds. -/
structure ScanOut where
  result : List FileInfo
  attempts : Nat
  sleepMs : Nat
deriving DecidableEq, Repr

/-- The retry loop of reload_drawer_content (for attempt in range(5)):
each attempt sleeps 200ms, scans, and the loop breaks on the first
non-empty listing; after the budget is exhausted the last result stands even
if empty (with buget 1 left, the attempt's result is final either way).
k is the current attempt index, the second argument the remaining budget. -/
def scanLoop (env : FsEnv) (path : String) : Nat → Nat → ScanOut
  | _, 0 => ⟨[], 0, 0⟩
  | k, 1 => ⟨scanAttemptResult (env.attemptListing path k), 1, 200⟩
  | k, m + 2 =>
    let r := scanAttemptResult (env.attemptListing path k)
    if r.isEmpty then
      let nxt := scanLoop env path (k + 1) (m + 1)
      ⟨nxt.result, nxt.attempts + 1, nxt.sleepMs + 200⟩
    else ⟨r, 1, 200⟩

/-- The root-to-entries cache of DataManager (_file_cache), a dict from
drawer path to the most recently scanned child list. -/
abbrev Cache := List (String × List FileInfo)

/-- Dict read: self._file_cache.get(drawer_path). -/
def cacheGet (c : Cache) (k : String) : Option (List FileInfo) :=
  (c.find? (fun q => q.1 == k)).map (fun q => q.2)

/-- Dict write: self._file_cache[drawer_path] = value (overwrite). -/
def cacheSet (c : Cache) (k : String) (v : List FileInfo) : Cache :=
  (k, v) :: c.filter (fun q => q.1 != k)

/-- Outcome of DataManager.reload_drawer_content: the updated cache, the
returned listing, and the attempt/delay accounting of the retry loop. -/
structure ReloadOut where
  cache : Cache
  result : List FileInfo
  attempts : Nat
  sleepMs : Nat

/-- DataManager.reload_drawer_content: if the path is not a directory (or
probing it raises, which the outer except absorbs), cache and return [];
otherwise run the 5-attempt retry loop, cache and return its result. -/
def reload_drawer_content (env : FsEnv) (cache : Cache) (path : String) : ReloadOut :=
  match env.isDirCheck path with
  | Except.error _ => ⟨cacheSet cache path [], [], 0, 0⟩
  | Except.ok false => ⟨cacheSet cache path [], [], 0, 0⟩
  | Except.ok true =>
    let s := scanLoop env path 0 5
    ⟨cacheSet cache path s.result, s.result, s.attempts, s.sleepMs⟩

theorem cacheGet_cacheSet_same (c : Cache) (k : String) (v : List FileInfo) :
    cacheGet (cacheSet c k v) k = some v := by
  simp [cacheGet, cacheSet, List.find?]

theorem isEmpty_false_of_ne_nil {α : Type _} {l : List α} (h : l ≠ []) :
    l.isEmpty = false := by
  cases l with
  | nil => exact absurd rfl h
  | cons a t => rfl

theorem scanLoop_step_empty (env : FsEnv) (path : String) (k m : Nat)
    (h : scanAttemptResult (env.attemptListing path k) = []) :
    scanLoop env path k (m + 2)
      = ⟨(scanLoop env path (k + 1) (m + 1)).result,
         (scanLoop env path (k + 1) (m + 1)).attempts + 1,
         (scanLoop env path (k + 1) (m + 1)).sleepMs + 200⟩ := by
  simp [scanLoop, h]

theorem scanLoop_step_nonempty (env : FsEnv) (path : String) (k m : Nat)
    (h : scanAttemptResult (env.attemptListing path k) ≠ []) :
    scanLoop env path k (m + 2) = ⟨scanAttemptResult (env.attemptListing path k), 1, 200⟩ := by
  simp [scanLoop, isEmpty_false_of_ne_nil h]

theorem scanLoop_all_empty (env : FsEnv) (path : String) :
    ∀ (m k : Nat), (∀ j, j < m → scanAttemptResult (env.attemptListing path (k + j)) = []) →
      scanLoop env path k m = ⟨[], m, 200 * m⟩ := by
  intro m
  induction m with
  | zero => intro k _; rfl
  | succ m2 ih =>
    intro k h
    have h0 : scanAttemptResult (env.attemptListing path k) = [] := by
      have := h 0 (Nat.succ_pos m2)
      simpa using this
    cases m2 with
    | zero =>
      simp [scanLoop, h0]
    | succ m3 =>
      have hrest : ∀ j, j < m3 + 1 →
          scanAttemptResult (env.attemptListing path (k + 1 + j)) = [] := by
        intro j hj
        have := h (j + 1) (by omega)
        have harith : k + (j + 1) = k + 1 + j := by omega
        rwa [harith] at this
      rw [scanLoop_step_empty env path k m3 h0, ih (k + 1) hrest]
      simp only [ScanOut.mk.injEq]
      exact ⟨trivial, trivial, by omega⟩

theorem scanLoop_first_nonempty (env : FsEnv) (path : String) :
    ∀ (i m k : Nat), i + 1 < m →
      (∀ j, j < i → scanAttemptResult (env.attemptListing path (k + j)) = []) →
      scanAttemptResult (env.attemptListing path (k + i)) ≠ [] →
      scanLoop env path k m
        = ⟨scanAttemptResult (env.attemptListing path (k + i)), i + 1, 200 * (i + 1)⟩ := by
  intro i
  induction i with
  | zero =>
    intro m k hm _ hne
    simp only [Nat.add_zero] at hne
    obtain ⟨m2, rfl⟩ : ∃ m2, m = m2 + 2 := ⟨m - 2, by omega⟩
    rw [scanLoop_step_nonempty env path k m2 hne]
    simp
  | succ i2 ih =>
    intro m k hm hpre hne
    have h0 : scanAttemptResult (env.attemptListing path k) = [] := by
      have := hpre 0 (Nat.succ_pos i2)
      simpa using this
    obtain ⟨m2, rfl⟩ : ∃ m2, m = m2 + 2 := ⟨m - 2, by omega⟩
    have hpre2 : ∀ j, j < i2 →
        scanAttemptResult (env.attemptListing path (k + 1 + j)) = [] := by
      intro j hj
      have := hpre (j + 1) (by omega)
      have harith : k + (j + 1) = k + 1 + j := by omega
      rwa [harith] at this
    have hne2 : scanAttemptResult (env.attemptListing path (k + 1 + i2)) ≠ [] := by
      have harith : k + (i2 + 1) = k + 1 + i2 := by omega
      rwa [harith] at hne
    have hrec := ih (m2 + 1) (k + 1) (by omega) hpre2 hne2
    rw [scanLoop_step_empty env path k m2 h0, hrec]
    have harith2 : k + 1 + i2 = k + (i2 + 1) := by omega
    rw [harith2]
    simp only [ScanOut.mk.injEq]
    exact ⟨trivial, trivial, by omega⟩

theorem scanLoop_attempts_le (env : FsEnv) (path : String) :
    ∀ (m k : Nat), (scanLoop env path k m).attempts ≤ m
      ∧ (scanLoop env path k m).sleepMs = 200 * (scanLoop env path k m).attempts := by
  intro m
  induction m with
  | zero => intro k; exact ⟨Nat.le_refl 0, rfl⟩
  | succ m2 ih =>
    intro k
    cases m2 with
    | zero => exact ⟨Nat.le_refl 1, rfl⟩
    | succ m3 =>
      by_cases hre : scanAttemptResult (env.attemptListing path k) = []
      · obtain ⟨h1, h2⟩ := ih (k + 1)
        rw [scanLoop_step_empty env path k m3 hre]
        constructor
        · show (scanLoop env path (k + 1) (m3 + 1)).attempts + 1 ≤ m3 + 1 + 1
          omega
        · show (scanLoop env path (k + 1) (m3 + 1)).sleepMs + 200
            = 200 * ((scanLoop env path (k + 1) (m3 + 1)).attempts + 1)
          omega
      · rw [scanLoop_step_nonempty env path k m3 hre]
        exact ⟨by show (1 : Nat) ≤ m3 + 1 + 1; omega, rfl⟩

/-! ### The watch engine state and the DataManager -/

/-- Path separator used in root-prefix matching (os.sep). -/
def sep : String := "/"

/-- Character-list prefix test (concrete-evaluation-friendly). -/
def chListPrefix : List Char → List Char → Bool
  | [], _ => true
  | _ :: _, [] => false
  | c :: cs, d :: ds => (c.toNat == d.toNat) && chListPrefix cs ds

/-- str.startswith(pre) on character lists. -/
def strStartsWith (s pre : String) : Bool :=
  chListPrefix pre.data s.data

/-- The event-to-root test of DrawerWatchdogManager._handle_event:
normalized_event_path.startswith(root_path + os.sep) or
normalized_event_path == root_path. -/
def matchesRoot (root e : String) : Bool :=
  strStartsWith e (root ++ sep) || e == root

/-- The loop over self.monitored_paths in _handle_event: the first root that
matches the normalized event path wins. -/
def findAffectedRoot (monitored : List String) (e : String) : Option String :=
  monitored.find? (fun root => matchesRoot root e)

/-- State of DrawerWatchdogManager: observer liveness, the monitored-root
set (in iteration order), and the debouncer state. -/
structure WatchdogState where
  observerAlive : Bool
  monitored : List String
  debounce : SimState

/-- DrawerWatchdogManager._handle_event at time now: normalize the event
path, attribute it to the first matching monitored root and schedule a
refresh request for that root; unmatched events are dropped. -/
def handleEvent (monitored : List String) (s : SimState)
    (normalize : String → String) (e : String) (now : Nat) : SimState :=
  match findAffectedRoot monitored (normalize e) with
  | some r => stepRequest s now r
  | none => s

/-- Deliver a time-ordered list of raw (time, path) filesystem events. -/
def runEvents (monitored : List String) (normalize : String → String)
    (s : SimState) : List (Nat × String) → SimState
  | [] => s
  | (t, e) :: rest => runEvents monitored normalize (handleEvent monitored s normalize e t) rest

/-- DrawerWatchdogManager.start: stop and clear all pending timers, replace
the monitored set by the normalized paths that are directories, and start
the observer if anything is monitored (it keeps running if already alive). -/
def watchdogStart (isDirB : String → Bool) (normalize : String → String)
    (w : WatchdogState) (paths : List String) : WatchdogState :=
  let valid := (paths.map normalize).filter isDirB
  ⟨w.observerAlive || !valid.isEmpty, valid, ⟨[], w.debounce.trace⟩⟩

/-- DrawerWatchdogManager.stop: stop and join the observer, clear the
monitored set, stop and clear every pending debounce timer. -/
def watchdogStop (w : WatchdogState) : WatchdogState :=
  ⟨false, [], ⟨[], w.debounce.trace⟩⟩

/-- State of a DataManager: the content cache plus its watchdog. -/
structure DMState where
  cache : Cache
  wd : WatchdogState

/-- DataManager.__init__: empty cache, fresh watchdog. -/
def initialDM : DMState :=
  ⟨[], ⟨false, [], ⟨[], []⟩⟩⟩

/-- DataManager.get_file_list: pure dict read, no side effects. -/
def get_file_list (dm : DMState) (drawer_path : String) : Option (List FileInfo) :=
  cacheGet dm.cache drawer_path

/-- DataManager.start_monitor delegates to the watchdog and never touches
the cache. -/
def start_monitor (isDirB : String → Bool) (normalize : String → String)
    (dm : DMState) (paths : List String) : DMState :=
  ⟨dm.cache, watchdogStart isDirB normalize dm.wd paths⟩

/-- DataManager.stop_monitor delegates to the watchdog and never touches
the cache. -/
def stop_monitor (dm : DMState) : DMState :=
  ⟨dm.cache, watchdogStop dm.wd⟩

/-- DataManager.reload_drawer_content lifted to the DataManager state. -/
def dmReload (env : FsEnv) (dm : DMState) (path : String) : DMState × List FileInfo :=
  let out := reload_drawer_content env dm.cache path
  (⟨out.cache, dm.wd⟩, out.result)

/-- DataManager._on_directory_changed: reload the drawer content first, then
re-emit directoryChanged for the path (so the emission observes the fresh
cache). The returned list is the emission performed after the reload. -/
def on_directory_changed (env : FsEnv) (dm : DMState) (path : String) :
    DMState × List String :=
  let r := dmReload env dm path
  (r.1, [path])

/-- Claim C2: cache read-after-write. Immediately after reload(root) the
read get(root) returns exactly the entries reload returned; start_monitor
and stop_monitor never write the cache (reload is the only write path);
and the directoryChanged handler reloads before it emits, so the emission
is paired with a cache that already holds the fresh entries. -/
theorem cache_read_after_write (env : FsEnv) (dm : DMState) (p : String)
    (paths : List String) (isDirB : String → Bool) (normalize : String → String) :
    get_file_list (dmReload env dm p).1 p = some (dmReload env dm p).2
    ∧ (start_monitor isDirB normalize dm paths).cache = dm.cache
    ∧ (stop_monitor dm).cache = dm.cache
    ∧ get_file_list (on_directory_changed env dm p).1 p = some (dmReload env dm p).2
    ∧ (on_directory_changed env dm p).2 = [p] := by
  refine ⟨?_, rfl, rfl, ?_, rfl⟩
  · show cacheGet (reload_drawer_content env dm.cache p).cache p
      = some (reload_drawer_content env dm.cache p).result
    cases hd : env.isDirCheck p with
    | error e => simp [reload_drawer_content, hd, cacheGet_cacheSet_same]
    | ok b =>
      cases b with
      | false => simp [reload_drawer_content, hd, cacheGet_cacheSet_same]
      | true => simp [reload_drawer_content, hd, cacheGet_cacheSet_same]
  · show cacheGet (reload_drawer_content env dm.cache p).cache p
      = some (reload_drawer_content env dm.cache p).result
    cases hd : env.isDirCheck p with
    | error e => simp [reload_drawer_content, hd, cacheGet_cacheSet_same]
    | ok b =>
      cases b with
      | false => simp [reload_drawer_content, hd, cacheGet_cacheSet_same]
      | true => simp [reload_drawer_content, hd, cacheGet_cacheSet_same]

/-- Claim C3: unloaded versus empty. Before any reload the cache has no key
for the root and get returns the distinguished none; after a reload of a
directory whose listing is empty on every attempt, get returns some [];
and the two outcomes are distinguishable. -/
theorem unloaded_vs_empty (env : FsEnv) (cache : Cache) (p : String)
    (hdir : env.isDirCheck p = Except.ok true)
    (hempty : ∀ j, j < 5 → env.attemptListing p j = []) :
    get_file_list initialDM p = none
    ∧ cacheGet (reload_drawer_content env cache p).cache p = some []
    ∧ (reload_drawer_content env cache p).result = []
    ∧ (none : Option (List FileInfo)) ≠ some [] := by
  have hloop : scanLoop env p 0 5 = ⟨[], 5, 200 * 5⟩ := by
    refine scanLoop_all_empty env p 5 0 ?_
    intro j hj
    have := hempty j (by omega)
    simp [this, scanAttemptResult, collectUntilError]
  refine ⟨rfl, ?_, ?_, by simp⟩
  · simp [reload_drawer_content, hdir, hloop, cacheGet_cacheSet_same]
  · simp [reload_drawer_content, hdir, hloop]

/-- Environment of a monitored directory that stays empty on every attempt. -/
def envEmptyDir : FsEnv :=
  ⟨fun _ => Except.ok true, fun _ _ => []⟩

/-- Concrete check of Claim C3 on an always-empty directory. -/
theorem unloaded_vs_empty_witness :
    get_file_list initialDM "/d" = none
    ∧ cacheGet (reload_drawer_content envEmptyDir [] "/d").cache "/d" = some []
    ∧ (reload_drawer_content envEmptyDir [] "/d").result = []
    ∧ (none : Option (List FileInfo)) ≠ some [] :=
  unloaded_vs_empty envEmptyDir [] "/d" rfl (fun _ _ => rfl)

/-- Claim C7: scanner retry contract. At most 5 attempts, each preceded by
a fixed 200ms delay; a non-directory path yields [] with zero attempts (and
no exception, the function is total); the loop stops at the first non-empty
listing and accepts it; after the budget is exhausted the final result is
the last (empty) listing. -/
theorem scanner_retry_contract (env : FsEnv) (cache : Cache) (p : String) :
    (reload_drawer_content env cache p).attempts ≤ 5
    ∧ (reload_drawer_content env cache p).sleepMs
        = 200 * (reload_drawer_content env cache p).attempts
    ∧ (env.isDirCheck p = Except.ok false →
        (reload_drawer_content env cache p).result = []
        ∧ (reload_drawer_content env cache p).attempts = 0)
    ∧ (∀ k, k + 1 < 5 → env.isDirCheck p = Except.ok true →
        (∀ j, j < k → scanAttemptResult (env.attemptListing p j) = []) →
        scanAttemptResult (env.attemptListing p k) ≠ [] →
        (reload_drawer_content env cache p).result = scanAttemptResult (env.attemptListing p k)
        ∧ (reload_drawer_content env cache p).attempts = k + 1)
    ∧ ((∀ j, j < 5 → scanAttemptResult (env.attemptListing p j) = []) →
        env.isDirCheck p = Except.ok true →
        (reload_drawer_content env cache p).result = []
        ∧ (reload_drawer_content env cache p).attempts = 5) := by
  refine ⟨?_, ?_, ?_, ?_, ?_⟩
  · cases hd : env.isDirCheck p with
    | error e => simp [reload_drawer_content, hd]
    | ok b =>
      cases b with
      | false => simp [reload_drawer_content, hd]
      | true =>
        have := (scanLoop_attempts_le env p 5 0).1
        simpa [reload_drawer_content, hd] using this
  · cases hd : env.isDirCheck p with
    | error e => simp [reload_drawer_content, hd]
    | ok b =>
      cases b with
      | false => simp [reload_drawer_content, hd]
      | true =>
        have := (scanLoop_attempts_le env p 5 0).2
        simpa [reload_drawer_content, hd] using this
  · intro hd
    simp [reload_drawer_content, hd]
  · intro k hk hd hpre hne
    have hpre0 : ∀ j, j < k → scanAttemptResult (env.attemptListing p (0 + j)) = [] := by
      intro j hj; simpa using hpre j hj
    have hne0 : scanAttemptResult (env.attemptListing p (0 + k)) ≠ [] := by
      simpa using hne
    have := scanLoop_first_nonempty env p k 5 0 (by omega) hpre0 hne0
    simp only [Nat.zero_add] at this
    constructor
    · simp [reload_drawer_content, hd, this]
    · simp [reload_drawer_content, hd, this]
  · intro hall hd
    have hall0 : ∀ j, j < 5 → scanAttemptResult (env.attemptListing p (0 + j)) = [] := by
      intro j hj; simpa using hall j hj
    have := scanLoop_all_empty env p 5 0 hall0
    constructor
    · simp [reload_drawer_content, hd, this]
    · simp [reload_drawer_content, hd, this]

/-- A sample entry used by the concrete environments below. -/
def fiX : FileInfo := ⟨"x.txt", "/d/x.txt", false⟩

/-- Environment where the directory listing is empty on attempts 0 and 1 and
non-empty from attempt 2 on. -/
def envLateDir : FsEnv :=
  ⟨fun _ => Except.ok true,
   fun _ k => if k < 2 then [] else [ScanItem.entry fiX]⟩

/-- Concrete check of Claim C7: with two empty attempts followed by a
non-empty one, reload accepts the attempt-2 listing after 3 attempts. -/
theorem scanner_retry_contract_witness :
    (reload_drawer_content envLateDir [] "/d").result = [fiX]
    ∧ (reload_drawer_content envLateDir [] "/d").attempts = 3 := by
  have h := (scanner_retry_contract envLateDir [] "/d").2.2.2.1 2 (by omega) rfl
    (by intro j hj; interval_cases j <;> rfl) (by decide)
  exact ⟨h.1.trans (by decide), h.2⟩

theorem scanRaised_result_empty {items : List ScanItem}
    (h : scanRaised items = true) : scanAttemptResult items = [] := by
  unfold scanRaised at h
  unfold scanAttemptResult
  cases hc : collectUntilError items with
  | ok fs => rw [hc] at h; simp at h
  | error e => rfl

theorem collectUntilError_error_of_mem {items : List ScanItem}
    (h : ScanItem.oserror ∈ items) : collectUntilError items = Except.error () := by
  induction items with
  | nil => cases h
  | cons it rest ih =>
    cases it with
    | oserror => rfl
    | entry f =>
      have hmem : ScanItem.oserror ∈ rest := by
        rcases List.mem_cons.mp h with h1 | h2
        · cases h1
        · exact h2
      simp [collectUntilError, ih hmem, Except.map]

theorem collectUntilError_ok_of_not_raised {items : List ScanItem}
    (h : scanRaised items = false) :
    collectUntilError items
      = Except.ok (items.filterMap (fun it =>
          match it with
          | ScanItem.entry f => some f
          | ScanItem.oserror => none)) := by
  induction items with
  | nil => rfl
  | cons it rest ih =>
    cases it with
    | oserror => simp [scanRaised, collectUntilError] at h
    | entry f =>
      have h2 : scanRaised rest = false := by
        unfold scanRaised at h ⊢
        cases hc : collectUntilError rest with
        | ok fs => rfl
        | error e => simp [collectUntilError, hc, Except.map] at h
      simp [collectUntilError, ih h2, List.filterMap_cons, Except.map]

/-- Claim C10 (implicit): on every failure path of reload (the path is not
a directory, probing it raises, or the scan raises on all attempts) the
cache entry for the root is overwritten with the empty list, regardless of
any previously cached non-empty entries, and the empty list is returned. -/
theorem reload_failure_overwrites (env : FsEnv) (cache : Cache) (p : String) :
    (env.isDirCheck p = Except.ok false →
      cacheGet (reload_drawer_content env cache p).cache p = some []
      ∧ (reload_drawer_content env cache p).result = [])
    ∧ (env.isDirCheck p = Except.error () →
      cacheGet (reload_drawer_content env cache p).cache p = some []
      ∧ (reload_drawer_content env cache p).result = [])
    ∧ ((∀ j, j < 5 → scanRaised (env.attemptListing p j) = true) →
      env.isDirCheck p = Except.ok true →
      cacheGet (reload_drawer_content env cache p).cache p = some []
      ∧ (reload_drawer_content env cache p).result = []) := by
  refine ⟨?_, ?_, ?_⟩
  · intro hd
    simp [reload_drawer_content, hd, cacheGet_cacheSet_same]
  · intro hd
    simp [reload_drawer_content, hd, cacheGet_cacheSet_same]
  · intro hall hd
    have hall0 : ∀ j, j < 5 → scanAttemptResult (env.attemptListing p (0 + j)) = [] := by
      intro j hj
      simpa using scanRaised_result_empty (hall j hj)
    have hloop := scanLoop_all_empty env p 5 0 hall0
    constructor
    · simp [reload_drawer_content, hd, hloop, cacheGet_cacheSet_same]
    · simp [reload_drawer_content, hd, hloop]

/-- Environment where every scan attempt raises an OS error immediately. -/
def envRaising : FsEnv :=
  ⟨fun _ => Except.ok true, fun _ _ => [ScanItem.oserror]⟩

/-- A cache that already holds a non-empty listing for the root. -/
def cacheWithOld : Cache := [("/d", [fiX])]

/-- Concrete check of Claim C10: with a previously cached non-empty entry
and a scan that raises on every attempt, reload overwrites with [] and
returns []. -/
theorem reload_failure_overwrites_witness :
    cacheGet (reload_drawer_content envRaising cacheWithOld "/d").cache "/d" = some []
    ∧ (reload_drawer_content envRaising cacheWithOld "/d").result = [] :=
  (reload_failure_overwrites envRaising cacheWithOld "/d").2.2
    (fun _ _ => rfl) rfl

/-! ### Claim C8: granularity of scan errors -/

/-- Entries used in the mixed-listing counterexample. -/
def fiA : FileInfo := ⟨"a.txt", "/d/a.txt", false⟩

/-- Entries used in the mixed-listing counterexample. -/
def fiC : FileInfo := ⟨"c.txt", "/d/c.txt", false⟩

/-- A listing in which the middle entry raises an OS error mid-scan. -/
def itemsMid : List ScanItem :=
  [ScanItem.entry fiA, ScanItem.oserror, ScanItem.entry fiC]

/-- Environment whose every attempt encounters the mixed listing. -/
def envMid : FsEnv :=
  ⟨fun _ => Except.ok true, fun _ _ => itemsMid⟩

/-- Claim C8 counterexample: an OS error on a single entry mid-scan does
not skip just that entry. The attempt yields [] (the accumulated good entry
fiA is discarded), and reload returns [] rather than the claimed remainder
[fiA, fiC]. -/
theorem scan_entry_error_counterexample :
    scanAttemptResult itemsMid = []
    ∧ scanAttemptResult itemsMid ≠ [fiA, fiC]
    ∧ (reload_drawer_content envMid [] "/d").result = []
    ∧ (reload_drawer_content envMid [] "/d").result ≠ [fiA, fiC] := by
  have hd : envMid.isDirCheck "/d" = Except.ok true := rfl
  have hloop := scanLoop_all_empty envMid "/d" 5 0 (fun j _ => rfl)
  refine ⟨rfl, by decide, ?_, ?_⟩
  · simp [reload_drawer_content, hd, hloop]
  · simp [reload_drawer_content, hd, hloop]

/-- Claim C8 (amended): during a directory scan, any OS error raised inside
an attempt - whether it affects a single entry mid-listing or the directory
listing as a whole - aborts that attempt and discards its partial result, so
the attempt yields the empty list (prompting a retry); an attempt with no
error returns exactly its listed entries; and if every attempt raises, the
reload yields the empty result. -/
theorem scan_error_granularity_amended (items : List ScanItem) (env : FsEnv)
    (cache : Cache) (p : String) :
    (ScanItem.oserror ∈ items → scanAttemptResult items = [])
    ∧ (scanRaised items = false →
        scanAttemptResult items = items.filterMap (fun it =>
          match it with
          | ScanItem.entry f => some f
          | ScanItem.oserror => none))
    ∧ ((∀ j, j < 5 → scanRaised (env.attemptListing p j) = true) →
        env.isDirCheck p = Except.ok true →
        (reload_drawer_content env cache p).result = []) := by
  refine ⟨?_, ?_, ?_⟩
  · intro hmem
    unfold scanAttemptResult
    rw [collectUntilError_error_of_mem hmem]
  · intro hok
    unfold scanAttemptResult
    rw [collectUntilError_ok_of_not_raised hok]
  · intro hall hd
    have hall0 : ∀ j, j < 5 → scanAttemptResult (env.attemptListing p (0 + j)) = [] := by
      intro j hj
      simpa using scanRaised_result_empty (hall j hj)
    have hloop := scanLoop_all_empty env p 5 0 hall0
    simp [reload_drawer_content, hd, hloop]

/-- Concrete check of the amended Claim C8 on the mixed listing: the
error-bearing attempt yields [] and an error-free listing returns its
entries. -/
theorem scan_error_granularity_amended_witness :
    scanAttemptResult itemsMid = []
    ∧ scanAttemptResult [ScanItem.entry fiA, ScanItem.entry fiC] = [fiA, fiC] := by
  have h := scan_error_granularity_amended itemsMid envMid [] "/d"
  have h2 := scan_error_granularity_amended
    [ScanItem.entry fiA, ScanItem.entry fiC] envMid [] "/d"
  exact ⟨h.1 (by decide), (h2.2.1 rfl).trans (by decide)⟩

/-! ### Claims C9 and C4: teardown and event attribution -/

theorem runEvents_no_roots (normalize : String → String) :
    ∀ (evs : List (Nat × String)) (tr : List (Nat × TraceEv)),
      runEvents [] normalize ⟨[], tr⟩ evs = ⟨[], tr⟩ := by
  intro evs
  induction evs with
  | nil => intro tr; rfl
  | cons ev rest ih =>
    intro tr
    have hnone : handleEvent [] ⟨[], tr⟩ normalize ev.2 ev.1 = ⟨[], tr⟩ := by
      simp [handleEvent, findAffectedRoot]
    calc runEvents [] normalize ⟨[], tr⟩ (ev :: rest)
        = runEvents [] normalize (handleEvent [] ⟨[], tr⟩ normalize ev.2 ev.1) rest := by
          cases ev; rfl
      _ = ⟨[], tr⟩ := by rw [hnone]; exact ih tr

/-- Claim C9: teardown quiescence. stop clears every pending debounce timer
and the monitored set and leaves the observer stopped; afterwards no
directoryChanged notification is ever emitted for any formerly watched
root, no matter what filesystem events arrive afterwards or how long the
clock runs (every later run produces an empty action trace). -/
theorem teardown_quiescence (w : WatchdogState) (normalize : String → String)
    (evs : List (Nat × String)) :
    (watchdogStop w).debounce.pending = []
    ∧ (watchdogStop w).monitored = []
    ∧ (watchdogStop w).observerAlive = false
    ∧ (drainAll (runEvents (watchdogStop w).monitored normalize
        ⟨(watchdogStop w).debounce.pending, []⟩ evs)).trace = []
    ∧ (stop_monitor ⟨[], w⟩).wd.debounce.pending = [] := by
  refine ⟨rfl, rfl, rfl, ?_, rfl⟩
  have : runEvents [] normalize ⟨[], []⟩ evs = ⟨[], []⟩ :=
    runEvents_no_roots normalize evs []
  show (drainAll (runEvents [] normalize ⟨[], []⟩ evs)).trace = []
  rw [this]
  rfl

/-- Claim C4: event-to-root matching is an exact-prefix test on the
normalized event path. The code's test agrees with the claimed disjunction
(equality with the root, or the root followed by the separator as a
prefix); an event is attributed iff such a root exists; the first root in
iteration order wins; unmatched events leave the debouncer untouched
(silently dropped) while matched ones schedule a refresh for the matched
root; and on the concrete paths, /a/bb/file.txt does not match root /a/b
while /a/b/file.txt does. -/
theorem event_root_matching (monitored : List String) (normalize : String → String)
    (s : SimState) (e : String) (now : Nat) :
    (∀ r, matchesRoot r (normalize e)
        = (normalize e == r || strStartsWith (normalize e) (r ++ sep)))
    ∧ (findAffectedRoot monitored (normalize e) = none
        ↔ ∀ r ∈ monitored, matchesRoot r (normalize e) = false)
    ∧ (∀ x rest2, findAffectedRoot (x :: rest2) (normalize e)
        = if matchesRoot x (normalize e) then some x
          else findAffectedRoot rest2 (normalize e))
    ∧ (∀ r, findAffectedRoot monitored (normalize e) = some r →
        r ∈ monitored ∧ matchesRoot r (normalize e) = true)
    ∧ (findAffectedRoot monitored (normalize e) = none →
        handleEvent monitored s normalize e now = s)
    ∧ (∀ r, findAffectedRoot monitored (normalize e) = some r →
        handleEvent monitored s normalize e now = stepRequest s now r)
    ∧ findAffectedRoot ["/a/b"] "/a/bb/file.txt" = none
    ∧ findAffectedRoot ["/a/b"] "/a/b/file.txt" = some "/a/b" := by
  refine ⟨?_, ?_, ?_, ?_, ?_, ?_, ?_, ?_⟩
  · intro r
    unfold matchesRoot
    cases hpre : strStartsWith (normalize e) (r ++ sep) <;>
      cases heq : (normalize e == r) <;> simp [hpre, heq]
  · constructor
    · intro hn r hr
      have := List.find?_eq_none.mp hn r hr
      simpa using this
    · intro hall
      refine List.find?_eq_none.mpr ?_
      intro r hr
      simp [hall r hr]
  · intro x rest2
    unfold findAffectedRoot
    cases hm : matchesRoot x (normalize e) with
    | true => simp [List.find?, hm]
    | false => simp [List.find?, hm]
  · intro r hfind
    have hf : List.find? (fun root => matchesRoot root (normalize e)) monitored
        = some r := hfind
    have hp := List.find?_some hf
    exact ⟨List.mem_of_find?_eq_some hf, by simpa using hp⟩
  · intro hnone
    simp [handleEvent, hnone]
  · intro r hsome
    simp [handleEvent, hsome]
  · decide
  · decide

/-- Concrete check of Claim C4: the event under /a/b is attributed to root
/a/b and schedules a refresh request for it. -/
theorem event_root_matching_witness :
    handleEvent ["/a/b"] ⟨[], []⟩ id "/a/b/file.txt" 0
      = stepRequest ⟨[], []⟩ 0 "/a/b" :=
  (event_root_matching ["/a/b"] id ⟨[], []⟩ "/a/b/file.txt" 0).2.2.2.2.2.1
    "/a/b" (by decide)

/-! ### Icon resolution pipeline (icon_loader.py, icon_dispatcher.py) -/

/-- A QIcon value: either the null icon (QIcon()) or a concrete icon,
distinguished by an opaque id. -/
inductive Icon where
  | null
  | mk (id : Nat)
deriving DecidableEq, Repr

/-- QIcon.isNull. -/
def Icon.isNull : Icon → Bool
  | Icon.null => true
  | Icon.mk _ => false

/-- The PathType literal of icon_dispatcher.py. -/
inductive PathType where
  | file
  | directory
  | unknown
deriving DecidableEq, Repr, BEq

/-- Result of the os.path.isdir and os.path.isfile probes in validate_path. -/
structure Probe where
  isDirectory : Bool
  isFile : Bool
deriving DecidableEq, Repr

/-- The ValidatedPathInfo TypedDict: full path, classified type, and the
lowercase extension for files (none otherwise). -/
structure ValidatedPathInfo where
  full_path : String
  path_type : PathType
  extension : Option String
deriving DecidableEq, Repr

/-- ASCII lowercasing of one character, as str.lower() acts on ASCII. -/
def asciiLowerChar (c : Char) : Char :=
  if 65 ≤ c.toNat ∧ c.toNat ≤ 90 then Char.ofNat (c.toNat + 32) else c

/-- str.lower() on the character list of a string. -/
def pyLower (s : String) : String :=
  ⟨s.data.map asciiLowerChar⟩

/-- DEFAULT_ICONS as initialized by DefaultIconProvider: folder, generic
file and unknown entries (none when the dict misses the key), plus any
extension-specific entries. -/
structure DefaultIconProvider where
  folder : Option Icon
  file : Option Icon
  unknown : Option Icon
  extIcons : String → Option Icon

/-- DefaultIconProvider.get_unknown_icon: DEFAULT_ICONS.get("unknown") or QIcon(). -/
def getUnknownIcon (p : DefaultIconProvider) : Icon :=
  p.unknown.getD Icon.null

/-- DefaultIconProvider.get_folder_icon: DEFAULT_ICONS.get("folder") or unknown. -/
def getFolderIcon (p : DefaultIconProvider) : Icon :=
  p.folder.getD (getUnknownIcon p)

/-- DefaultIconProvider.get_file_icon: DEFAULT_ICONS.get("file") or unknown. -/
def getFileIcon (p : DefaultIconProvider) : Icon :=
  p.file.getD (getUnknownIcon p)

/-- DefaultIconProvider.get_icon_for_extension (the dict lookup on the
lowercased extension). -/
def getIconForExtension (p : DefaultIconProvider) (ext : String) : Option Icon :=
  p.extIcons (pyLower ext)

/-- Outcome of the ThumbnailWorker try body for a path: the QImageReader or
scaling chain can raise, fail to read, produce a null image, a null scaled
image or a null pixmap, or succeed with an icon. -/
inductive ThumbOutcome where
  | raises
  | cannotRead
  | nullImage
  | nullScaled
  | nullPixmap
  | ok (i : Icon)
deriving DecidableEq, Repr

/-- The data block of a parsed .lnk file (LnkLinkData). -/
structure LnkFields where
  icon_location : Option String
  working_directory : Option String
  relative_path : Option String
  absolute_path : Option String
deriving DecidableEq, Repr

/-- The validated LnkParse3 JSON (LnkJsonModel), with the extra
ICON_LOCATION_BLOCK target_unicode flattened in. -/
structure LnkJson where
  data : Option LnkFields
  extraIconTarget : Option String
deriving DecidableEq, Repr

/-- Whether an Optional[str] is truthy in Python (present and non-empty). -/
def optTruthy : Option String → Bool
  | some s => !(s == "")
  | none => false

/-- Environment of OS and Qt primitives consumed by the icon pipeline.
Fallible primitives return Except so that the embedding of each try/except
is explicit: initFails is the failure of _initialize_icon_components,
probe backs validate_path, lnkParse is open+LnkParse3 (error) composed with
pydantic validation (ok none is a ValidationError, absorbed into an empty
model), pathExists and qiconLoad back try_get_icon, and qtProviderIcon is
QFileIconProvider.icon. -/
structure IconEnv where
  initFails : Bool
  probe : String → Except Unit Probe
  splitextExt : String → String
  thumbOutcome : String → ThumbOutcome
  platformWin32 : Bool
  hasLnkParse : Bool
  lnkParse : String → Except Unit (Option LnkJson)
  expandvars : String → String
  isDirPlain : String → Bool
  joinNorm : String → String → String
  normpath : String → String
  pathExists : String → Bool
  qiconLoad : String → Except Unit Icon
  qtProviderIcon : String → Except Unit Icon
  provider : DefaultIconProvider

/-- try_get_icon: a non-empty existing path is loaded with QIcon inside a
try (an exception or a null icon yields None). -/
def try_get_icon (env : IconEnv) (path : Option String) : Option Icon :=
  match path with
  | none => none
  | some p =>
    if !(p == "") && env.pathExists p then
      match env.qiconLoad p with
      | Except.error _ => none
      | Except.ok i => if i.isNull then none else some i
    else none

/-- validate_path of icon_dispatcher.py: a missing or empty string is
invalid; an OSError during probing is caught and yields invalid; a
directory gets no extension; a file gets the lowercased splitext suffix;
anything else is invalid. -/
def validate_path (env : IconEnv) (path : Option String) : Option ValidatedPathInfo :=
  match path with
  | none => none
  | some p =>
    if p == "" then none
    else
      match env.probe p with
      | Except.error _ => none
      | Except.ok pr =>
        if pr.isDirectory then some ⟨p, PathType.directory, none⟩
        else if pr.isFile then some ⟨p, PathType.file, some (pyLower (env.splitextExt p))⟩
        else none

/-- SUPPORTED_IMAGE_EXTENSIONS. -/
def supportedImageExtensions : List String :=
  [".png", ".jpg", ".jpeg", ".bmp", ".gif", ".tif", ".tiff", ".webp"]

/-- ThumbnailWorker.can_handle: a file whose extension is a supported
image extension. -/
def canHandle (info : ValidatedPathInfo) : Bool :=
  info.path_type == PathType.file &&
    (match info.extension with
     | some e => supportedImageExtensions.contains e
     | none => false)

/-- ThumbnailWorker.get_icon: re-checks can_handle, then runs the guarded
reader/scale/pixmap chain; every failure outcome yields None. -/
def thumbnailGetIcon (env : IconEnv) (info : ValidatedPathInfo) : Option Icon :=
  if !canHandle info then none
  else
    match env.thumbOutcome info.full_path with
    | ThumbOutcome.ok i => some i
    | _ => none

/-- LnkIconWorker.get_icon: guarded by platform and parser availability;
parse errors are caught and yield None; a validation error yields the empty
model; then explicit icon location, the extra block with variable
expansion, and finally the resolved target path are tried in order. -/
def lnkGetIcon (env : IconEnv) (info : ValidatedPathInfo) : Option Icon :=
  if !(env.hasLnkParse && env.platformWin32) then none
  else
    match env.lnkParse info.full_path with
    | Except.error _ => none
    | Except.ok parsed =>
      let lnk := parsed.getD ⟨none, none⟩
      let i1 : Option Icon :=
        match lnk.data with
        | some d => if optTruthy d.icon_location then try_get_icon env d.icon_location else none
        | none => none
      let i2 : Option Icon :=
        match i1 with
        | some ic => some ic
        | none =>
          if optTruthy lnk.extraIconTarget then
            try_get_icon env (some (env.expandvars (lnk.extraIconTarget.getD "")))
          else none
      match i2 with
      | some ic => some ic
      | none =>
        let target : Option String :=
          match lnk.data with
          | some d =>
            if optTruthy d.working_directory && optTruthy d.relative_path then
              (if env.isDirPlain (d.working_directory.getD "") then
                some (env.joinNorm (d.working_directory.getD "") (d.relative_path.getD ""))
              else none)
            else if optTruthy d.absolute_path then
              some (env.normpath (d.absolute_path.getD ""))
            else none
          | none => none
        match target with
        | some t => try_get_icon env (some t)
        | none => none

/-- The extension-specific default icon consulted first by
FileIconWorker.get_icon (guarded by the truthiness of the extension). -/
def extOverride (env : IconEnv) (info : ValidatedPathInfo) : Option Icon :=
  match info.extension with
  | some e => if !(e == "") then getIconForExtension env.provider e else none
  | none => none

/-- FileIconWorker.get_icon: extension-specific default first, then a
direct QIcon load from the file path. -/
def fileGetIcon (env : IconEnv) (info : ValidatedPathInfo) : Option Icon :=
  match extOverride env info with
  | some ic => some ic
  | none => try_get_icon env (some info.full_path)

/-- The check `if icon and not icon.isNull()` applied to a worker result. -/
def okIcon : Option Icon → Option Icon
  | some i => if i.isNull then none else some i
  | none => none

/-- The guarded QFileIconProvider step of dispatch (priority 3): the call
sits in a try whose handler falls through, and a null icon falls through. -/
def qtTryIcon (env : IconEnv) (p : String) : Option Icon :=
  match env.qtProviderIcon p with
  | Except.error _ => none
  | Except.ok qi => if qi.isNull then none else some qi

/-- Whether the QFileIconProvider step fails to produce an icon. -/
def qtFails (env : IconEnv) (p : String) : Bool :=
  match env.qtProviderIcon p with
  | Except.error _ => true
  | Except.ok qi => qi.isNull

/-- The guard of the LNK step of dispatch (priority 2), minus the
file-type test. -/
def lnkGate (env : IconEnv) (info : ValidatedPathInfo) : Bool :=
  env.platformWin32 && info.extension == some ".lnk" && env.hasLnkParse

/-- IconDispatcher.dispatch: thumbnail (files), then LNK (files on win32),
then QFileIconProvider (files and directories, in a try), then the folder
icon for directories, then FileIconWorker with the generic file icon as
final file fallback; anything else yields None. The Except result records
whether an exception escapes the method (none ever does). -/
def dispatch (env : IconEnv) (info : ValidatedPathInfo) : Except Unit (Option Icon) :=
  match okIcon (if info.path_type == PathType.file && canHandle info
                then thumbnailGetIcon env info else none) with
  | some i => Except.ok (some i)
  | none =>
    match okIcon (if info.path_type == PathType.file && lnkGate env info
                  then lnkGetIcon env info else none) with
    | some i => Except.ok (some i)
    | none =>
      match qtTryIcon env info.full_path with
      | some i => Except.ok (some i)
      | none =>
        match okIcon (if info.path_type == PathType.directory
                      then some (getFolderIcon env.provider) else none) with
        | some i => Except.ok (some i)
        | none =>
          if info.path_type == PathType.file then
            match okIcon (fileGetIcon env info) with
            | some i => Except.ok (some i)
            | none => Except.ok (some (getFileIcon env.provider))
          else Except.ok none

/-- get_icon_for_path of icon_loader.py: after (possibly failing) lazy
initialization, a failed init returns the basic empty icon; an invalid
path returns the unknown icon; then dispatch runs inside a try, and a
missing, null or exceptional result degrades to the unknown icon. -/
def get_icon_for_path (env : IconEnv) (full_path : Option String) : Icon :=
  let localUnknown := if env.initFails then Icon.null else getUnknownIcon env.provider
  if env.initFails then localUnknown
  else
    match validate_path env full_path with
    | none => localUnknown
    | some info =>
      match dispatch env info with
      | Except.error _ => localUnknown
      | Except.ok (some i) => if i.isNull then localUnknown else i
      | Except.ok none => localUnknown

/-- Claim C5: icon pipeline totality. get_icon_for_path is a total function
into icons (it can only return an icon value, never propagate an error);
dispatch never lets an exception escape, for every environment whose raw
primitives may throw; and an input that fails validation (empty, missing or
garbage path) degrades to the unknown fallback icon. -/
theorem icon_pipeline_totality (env : IconEnv) (path : Option String) :
    (∃ i : Icon, get_icon_for_path env path = i)
    ∧ (∀ info : ValidatedPathInfo, ∃ r : Option Icon, dispatch env info = Except.ok r)
    ∧ (validate_path env path = none → env.initFails = false →
        get_icon_for_path env path = getUnknownIcon env.provider) := by
  refine ⟨⟨get_icon_for_path env path, rfl⟩, ?_, ?_⟩
  · intro info
    unfold dispatch
    repeat' split
    all_goals exact ⟨_, rfl⟩
  · intro hv hinit
    simp [get_icon_for_path, hv, hinit]

/-- An environment in which every primitive fails: probing raises, parsing
raises, loading raises, and only the provider's unknown icon exists. -/
def envAllFail : IconEnv :=
  ⟨false,
   fun _ => Except.error (),
   fun _ => "",
   fun _ => ThumbOutcome.raises,
   false, false,
   fun _ => Except.error (),
   id,
   fun _ => false,
   fun a b => a ++ "/" ++ b,
   id,
   fun _ => false,
   fun _ => Except.error (),
   fun _ => Except.error (),
   ⟨none, none, some (Icon.mk 9), fun _ => none⟩⟩

/-- Concrete check of Claim C5: with a missing path and an all-failing
environment, the pipeline still returns the unknown icon. -/
theorem icon_pipeline_totality_witness :
    validate_path envAllFail none = none
    ∧ get_icon_for_path envAllFail none = getUnknownIcon envAllFail.provider :=
  ⟨rfl, (icon_pipeline_totality envAllFail none).2.2 rfl rfl⟩

/-- An environment where QFileIconProvider yields a real icon (id 2) and
the configured folder icon is a different icon (id 1). -/
def envDirQt : IconEnv :=
  ⟨false,
   fun _ => Except.ok ⟨true, false⟩,
   fun _ => "",
   fun _ => ThumbOutcome.raises,
   false, false,
   fun _ => Except.error (),
   id,
   fun _ => false,
   fun a b => a ++ "/" ++ b,
   id,
   fun _ => false,
   fun _ => Except.error (),
   fun _ => Except.ok (Icon.mk 2),
   ⟨some (Icon.mk 1), some (Icon.mk 3), some (Icon.mk 9), fun _ => none⟩⟩

/-- Claim C6 counterexample: for a directory, the configured folder icon is
not the first, terminal step. With the platform provider returning icon 2,
dispatch returns icon 2 (the QFileIconProvider step runs first), not the
configured folder icon 1. -/
theorem icon_strategy_order_counterexample :
    dispatch envDirQt ⟨"/d", PathType.directory, none⟩ = Except.ok (some (Icon.mk 2))
    ∧ getFolderIcon envDirQt.provider = Icon.mk 1
    ∧ (Icon.mk 2 : Icon) ≠ Icon.mk 1
    ∧ get_icon_for_path envDirQt (some "/d") = Icon.mk 2 := by
  refine ⟨rfl, rfl, by decide, rfl⟩

/-- Claim C6 (amended): in dispatch, directories get the configured folder
icon only as the fallback after the platform provider step fails (the
provider is consulted first); for files the thumbnail strategy is terminal
when it succeeds, ahead of any extension override; the extension override
is consulted only in the final FileIconWorker fallback, after the
thumbnail, shortcut and platform-provider strategies have all failed, and
a configured non-null override is then returned; within FileIconWorker the
override is returned before the direct-load attempt. -/
theorem icon_strategy_order_amended (env : IconEnv) (info : ValidatedPathInfo) :
    (info.path_type = PathType.directory → qtFails env info.full_path = true →
      (getFolderIcon env.provider).isNull = false →
      dispatch env info = Except.ok (some (getFolderIcon env.provider)))
    ∧ (∀ i : Icon, info.path_type = PathType.file → canHandle info = true →
        env.thumbOutcome info.full_path = ThumbOutcome.ok i → i.isNull = false →
        dispatch env info = Except.ok (some i))
    ∧ (∀ o : Icon, info.path_type = PathType.file → canHandle info = false →
        lnkGate env info = false → qtFails env info.full_path = true →
        extOverride env info = some o → o.isNull = false →
        dispatch env info = Except.ok (some o))
    ∧ (∀ o : Icon, extOverride env info = some o → fileGetIcon env info = some o) := by
  have hqt : ∀ p, qtFails env p = true → qtTryIcon env p = none := by
    intro p h
    unfold qtFails at h
    unfold qtTryIcon
    cases hc : env.qtProviderIcon p with
    | error e => rfl
    | ok qi =>
      rw [hc] at h
      have h2 : qi.isNull = true := h
      simp [h2]
  refine ⟨?_, ?_, ?_, ?_⟩
  · intro hdir hfail hfold
    have ht : (info.path_type == PathType.file) = false := by
      rw [hdir]; rfl
    have hd : (info.path_type == PathType.directory) = true := by
      rw [hdir]; rfl
    unfold dispatch
    rw [ht]
    simp only [Bool.false_and, if_false, okIcon]
    rw [hqt info.full_path hfail, hd]
    simp [okIcon, hfold]
  · intro i hfile hch hth hnn
    have hf : (info.path_type == PathType.file) = true := by
      rw [hfile]; rfl
    unfold dispatch
    rw [hf, hch]
    simp only [Bool.true_and, if_true]
    unfold thumbnailGetIcon
    rw [hch, hth]
    simp [okIcon, hnn]
  · intro o hfile hch hlnk hfail hov hnn
    have hf : (info.path_type == PathType.file) = true := by
      rw [hfile]; rfl
    have hd : (info.path_type == PathType.directory) = false := by
      rw [hfile]; rfl
    have hfi : fileGetIcon env info = some o := by
      unfold fileGetIcon
      rw [hov]
    unfold dispatch
    rw [hf, hch, hlnk]
    simp only [Bool.true_and, Bool.and_false, if_false, okIcon]
    rw [hqt info.full_path hfail, hd]
    simp only [Bool.false_eq_true, if_false, okIcon, hf, if_true]
    rw [hfi]
    simp [okIcon, hnn]
  · intro o hov
    unfold fileGetIcon
    rw [hov]

/-- An environment for a file with a configured .xyz override icon (id 4)
where the thumbnail, shortcut and platform-provider strategies all fail. -/
def envFileOverride : IconEnv :=
  ⟨false,
   fun _ => Except.ok ⟨false, true⟩,
   fun _ => ".xyz",
   fun _ => ThumbOutcome.raises,
   false, false,
   fun _ => Except.error (),
   id,
   fun _ => false,
   fun a b => a ++ "/" ++ b,
   id,
   fun _ => false,
   fun _ => Except.error (),
   fun _ => Except.ok Icon.null,
   ⟨some (Icon.mk 1), some (Icon.mk 3), some (Icon.mk 9),
    fun e => if e == ".xyz" then some (Icon.mk 4) else none⟩⟩

/-- Concrete check of the amended Claim C6: the folder icon is returned for
a directory once the provider fails, and the .xyz override is returned for
a file after the earlier strategies fail. -/
theorem icon_strategy_order_amended_witness :
    dispatch envFileOverride ⟨"/d/f.xyz", PathType.file, some ".xyz"⟩
      = Except.ok (some (Icon.mk 4))
    ∧ dispatch envFileOverride ⟨"/d", PathType.directory, none⟩
      = Except.ok (some (Icon.mk 1)) := by
  constructor
  · exact (icon_strategy_order_amended envFileOverride
      ⟨"/d/f.xyz", PathType.file, some ".xyz"⟩).2.2.1 (Icon.mk 4)
      rfl (by decide) rfl rfl rfl rfl
  · exact (icon_strategy_order_amended envFileOverride
      ⟨"/d", PathType.directory, none⟩).1 rfl rfl rfl
